import Mathlib

/-!
Shallow embedding of the go-mouser request pipeline: the dual-window rate
limiter (ratelimit.go), the retry policy (retry.go), the TTL cache
(cache.go) and the request executor (doWithRetry / doOnce in the client
transport file), together with theorems settling the specification claims.

Wall-clock instants and durations are modelled as integers counting
nanoseconds (Go's time.Time / time.Duration are int64 nanosecond values);
the zero time.Time value is modelled as 0.  Go float64 arithmetic in the
backoff computation is modelled over the rationals.
-/

/-- Nanoseconds in one second (Go time.Second). -/
def nsPerSecond : Int := 1000000000

/-- Nanoseconds in one minute (Go time.Minute). -/
def nsPerMinute : Int := 60 * nsPerSecond

/-- Nanoseconds in one day (Go 24 * time.Hour). -/
def nsPerDay : Int := 24 * 60 * nsPerMinute

/-- Sentinel errors from errors.go relevant to the rate limiter:
ErrRateLimitExceeded and ErrDailyLimitExceeded.  Wait wraps
ErrDailyLimitExceeded with fmt.Errorf, which preserves its identity for
errors.Is; the wrapper text is not modelled. -/
inductive SentinelError where
  | rateLimitExceeded
  | dailyLimitExceeded
deriving DecidableEq, Repr

/-- State of RateLimiter (ratelimit.go lines 19-34).  The mutex is not a
value; operations are modelled as state transformers taking the current
time `now` explicitly. -/
structure RateLimiter where
  requestsPerMinute : Int
  minuteTokens : Int
  lastMinuteReset : Int
  requestsPerDay : Int
  dailyTokens : Int
  lastDayReset : Int
  blockedUntil : Int
deriving DecidableEq, Repr

/-- NewRateLimiter (ratelimit.go lines 37-47).  blockedUntil is left at the
zero time, modelled as 0. -/
def NewRateLimiter (requestsPerMinute requestsPerDay now : Int) : RateLimiter :=
  { requestsPerMinute := requestsPerMinute
    minuteTokens := requestsPerMinute
    lastMinuteReset := now
    requestsPerDay := requestsPerDay
    dailyTokens := requestsPerDay
    lastDayReset := now
    blockedUntil := 0 }

/-- The window-reset block duplicated verbatim in Wait (lines 69-79) and
TryAcquire (lines 123-133): refill a window's tokens to capacity and anchor
its start at `now` once the window length has elapsed. -/
def RateLimiter.resetWindows (r : RateLimiter) (now : Int) : RateLimiter :=
  let r1 :=
    if now - r.lastMinuteReset ≥ nsPerMinute then
      { r with minuteTokens := r.requestsPerMinute, lastMinuteReset := now }
    else r
  if now - r1.lastDayReset ≥ nsPerDay then
    { r1 with dailyTokens := r1.requestsPerDay, lastDayReset := now }
  else r1

/-- TryAcquire (ratelimit.go lines 112-148).  Returns the updated state,
the granted flag, and the error (none on success).  Go's
now.Before(blockedUntil) is now < blockedUntil. -/
def RateLimiter.TryAcquire (r : RateLimiter) (now : Int) :
    RateLimiter × Bool × Option SentinelError :=
  if now < r.blockedUntil then
    (r, false, some .rateLimitExceeded)
  else
    let r := r.resetWindows now
    if r.dailyTokens ≤ 0 then
      (r, false, some .dailyLimitExceeded)
    else if r.minuteTokens ≤ 0 then
      (r, false, some .rateLimitExceeded)
    else
      ({ r with minuteTokens := r.minuteTokens - 1, dailyTokens := r.dailyTokens - 1 },
       true, none)

/-- Outcome of one pass through the body of Wait's for-loop
(ratelimit.go lines 52-107): a permit is granted, the daily-limit error is
returned, or the loop sleeps (until the given wake instant) and retries. -/
inductive WaitOutcome where
  | granted (r : RateLimiter)
  | dailyExceeded (r : RateLimiter)
  | sleep (r : RateLimiter) (wakeAt : Int)
deriving DecidableEq, Repr

/-- The limiter state carried by a WaitOutcome. -/
def WaitOutcome.state : WaitOutcome → RateLimiter
  | .granted r => r
  | .dailyExceeded r => r
  | .sleep r _ => r

/-- One pass through the body of Wait's for-loop at time `now`
(ratelimit.go lines 52-107): blackout check first (state unchanged when
sleeping it out), then window resets, then the daily fail-fast check, then
the grant, else sleep until the minute window resets. -/
def RateLimiter.waitStep (r : RateLimiter) (now : Int) : WaitOutcome :=
  if now < r.blockedUntil then
    .sleep r r.blockedUntil
  else
    let r := r.resetWindows now
    if r.dailyTokens ≤ 0 then
      .dailyExceeded r
    else if r.minuteTokens > 0 then
      .granted { r with minuteTokens := r.minuteTokens - 1, dailyTokens := r.dailyTokens - 1 }
    else
      .sleep r (r.lastMinuteReset + nsPerMinute)

/-- Wait (ratelimit.go lines 51-108) for a context that is never cancelled,
observed at a list of loop-entry instants: the first element is the time of
the initial pass, later elements the times the loop re-runs after sleeping.
Returns none when the loop is still running (sleeping) after the last
observed wake-up, some (state, none) on a granted permit, and
some (state, dailyLimitExceeded) on the daily fail-fast return. -/
def RateLimiter.Wait (r : RateLimiter) : List Int → Option (RateLimiter × Option SentinelError)
  | [] => none
  | now :: rest =>
    match r.waitStep now with
    | .granted r => some (r, none)
    | .dailyExceeded r => some (r, some .dailyLimitExceeded)
    | .sleep r _ => r.Wait rest

/-- UpdateFromResponse (ratelimit.go lines 152-169): extend blockedUntil to
now + min(retryAfterSeconds, 300) seconds, only forward. -/
def RateLimiter.UpdateFromResponse (r : RateLimiter) (now retryAfterSeconds : Int) : RateLimiter :=
  if retryAfterSeconds ≤ 0 then r
  else
    let s := if retryAfterSeconds > 300 then 300 else retryAfterSeconds
    let blockedUntil := now + s * nsPerSecond
    if r.blockedUntil < blockedUntil then { r with blockedUntil := blockedUntil } else r

/-- RemainingMinute (ratelimit.go lines 172-181): read-only. -/
def RateLimiter.RemainingMinute (r : RateLimiter) (now : Int) : Int :=
  if now - r.lastMinuteReset ≥ nsPerMinute then r.requestsPerMinute else r.minuteTokens

/-- RemainingDaily (ratelimit.go lines 184-193): read-only. -/
def RateLimiter.RemainingDaily (r : RateLimiter) (now : Int) : Int :=
  if now - r.lastDayReset ≥ nsPerDay then r.requestsPerDay else r.dailyTokens

/-- RateLimitStats (ratelimit.go lines 196-200). -/
structure RateLimitStats where
  MinuteRemaining : Int
  DailyRemaining : Int
  BlockedUntil : Int
deriving DecidableEq, Repr

/-- Stats (ratelimit.go lines 203-212): a read-only snapshot. -/
def RateLimiter.Stats (r : RateLimiter) : RateLimitStats :=
  { MinuteRemaining := r.minuteTokens
    DailyRemaining := r.dailyTokens
    BlockedUntil := r.blockedUntil }

/-- Entry of the in-memory cache (cache.go lines 26-29); value is a byte
slice, modelled as a list of naturals. -/
structure cacheEntry where
  value : List Nat
  expiresAt : Int
deriving DecidableEq, Repr

/-- MemoryCache state (cache.go lines 19-24): the entry table (a Go map,
modelled as an association list whose most recent binding for a key comes
first) plus the configured default TTL.  The mutex and the cleanup
goroutine's channel are not values. -/
structure MemoryCache where
  entries : List (String × cacheEntry)
  ttl : Int
deriving DecidableEq, Repr

/-- NewMemoryCache (cache.go lines 32-40), without the background
goroutine, whose sweep action is `cleanup` below. -/
def NewMemoryCache (defaultTTL : Int) : MemoryCache :=
  { entries := [], ttl := defaultTTL }

/-- Get (cache.go lines 43-57) at time `now`.  Go's
time.Now().After(entry.expiresAt) is expiresAt < now.  Get holds only the
read lock and never mutates the entry table, so it is a pure function of
the state. -/
def MemoryCache.Get (c : MemoryCache) (now : Int) (key : String) : Option (List Nat) :=
  match c.entries.lookup key with
  | none => none
  | some entry => if entry.expiresAt < now then none else some entry.value

/-- Set (cache.go lines 61-73) at time `now`: a ttl of exactly 0 falls back
to the default TTL; the map assignment overwrites any previous binding. -/
def MemoryCache.Set (c : MemoryCache) (now : Int) (key : String) (value : List Nat)
    (ttl : Int) : MemoryCache :=
  let ttl := if ttl = 0 then c.ttl else ttl
  { c with entries :=
      (key, { value := value, expiresAt := now + ttl }) ::
        c.entries.filter (fun p => p.1 ≠ key) }

/-- Delete (cache.go lines 76-80). -/
def MemoryCache.Delete (c : MemoryCache) (key : String) : MemoryCache :=
  { c with entries := c.entries.filter (fun p => p.1 ≠ key) }

/-- cleanup (cache.go lines 103-113), the periodic sweep's action at time
`now`: delete every entry with now.After(expiresAt), i.e. keep exactly
those with now ≤ expiresAt. -/
def MemoryCache.cleanup (c : MemoryCache) (now : Int) : MemoryCache :=
  { c with entries := c.entries.filter (fun p => ¬ p.2.expiresAt < now) }

/-- Size (cache.go lines 116-120). -/
def MemoryCache.Size (c : MemoryCache) : Nat :=
  c.entries.length

/-- Classification flags of a Go error as seen by retry.go's
isTemporaryNetworkError / isTimeoutError: some flags when the error
type-asserts to net.Error, none otherwise (any non-network error,
including a MouserError). -/
structure NetErrorFlags where
  temporary : Bool
  timeout : Bool
deriving DecidableEq, Repr

/-- isTemporaryNetworkError (retry.go lines 67-73). -/
def isTemporaryNetworkError (err : Option NetErrorFlags) : Bool :=
  err.elim false (fun e => e.temporary)

/-- isTimeoutError (retry.go lines 76-81). -/
def isTimeoutError (err : Option NetErrorFlags) : Bool :=
  err.elim false (fun e => e.timeout)

/-- shouldRetry (retry.go lines 40-64): retry on temporary/timeout network
errors and on HTTP 429, 502, 503, 504, 500. -/
def shouldRetry (err : Option NetErrorFlags) (statusCode : Int) : Bool :=
  if isTemporaryNetworkError err then true
  else if isTimeoutError err then true
  else if statusCode = 429 then true
  else if statusCode = 502 then true
  else if statusCode = 503 then true
  else if statusCode = 504 then true
  else if statusCode = 500 then true
  else false

/-- RetryConfig (retry.go lines 13-19).  The three duration/float fields
used by calculateBackoff are modelled over the rationals (float64
arithmetic modelled exactly). -/
structure RetryConfig where
  MaxRetries : Int
  InitialBackoff : ℚ
  MaxBackoff : ℚ
  Multiplier : ℚ
  Jitter : ℚ
deriving DecidableEq, Repr

/-- pow (retry.go lines 102-108): base^exp computed by exp successive
multiplications.  The source truncates its float64 exponent with int();
calculateBackoff only ever passes the attempt index, a non-negative
integer, so the exponent is taken as a natural number here. -/
def pow (base : ℚ) : Nat → ℚ
  | 0 => 1
  | n + 1 => pow base n * base

/-- calculateBackoff (retry.go lines 84-99) with the draw of
rand.Float64()*2 - 1 made explicit as the input `u` (a value in [-1, 1)):
exponential backoff, then multiplicative jitter when Jitter > 0, then a
cap at MaxBackoff.  The final time.Duration truncation to whole
nanoseconds is not modelled (the value itself is). -/
def RetryConfig.calculateBackoff (c : RetryConfig) (attempt : Nat) (u : ℚ) : ℚ :=
  let backoff := c.InitialBackoff * pow c.Multiplier attempt
  let backoff := if 0 < c.Jitter then backoff + backoff * c.Jitter * u else backoff
  if c.MaxBackoff < backoff then c.MaxBackoff else backoff

/-- Go strconv.Atoi: an optional single sign followed by at least one
decimal digit, nothing else; values outside the int64 range are a range
error (modelled as none, since parseRetryAfter only distinguishes
err == nil). -/
def goAtoi (s : String) : Option Int :=
  match s.data with
  | [] => none
  | c :: rest =>
    let (neg, digits) :=
      if c.toNat = 45 then (true, rest)
      else if c.toNat = 43 then (false, rest)
      else (false, c :: rest)
    if digits = [] then none
    else if digits.all (fun d => 48 ≤ d.toNat ∧ d.toNat ≤ 57) then
      let n : Int := digits.foldl (fun acc d => acc * 10 + ((d.toNat : Int) - 48)) 0
      let v := if neg then -n else n
      if v < -(2 ^ 63) ∨ 2 ^ 63 ≤ v then none else some v
    else none

/-- parseRetryAfter (retry.go lines 112-131).  The HTTP-date branch calls
time.Parse(time.RFC1123, header) and time.Until, which depend on the wall
clock; it is abstracted by the input `dateSecs`: some s when the header
parses as an RFC1123 date s whole seconds from now, none when it does not
parse as a date.  Only the date branch clamps non-positive values to 0;
the Atoi branch returns the parsed integer as-is. -/
def parseRetryAfter (header : String) (dateSecs : Option Int) : Int :=
  if header = "" then 0
  else
    match goAtoi header with
    | some seconds => seconds
    | none =>
      match dateSecs with
      | some seconds => if seconds > 0 then seconds else 0
      | none => 0

/-- An HTTP response as the executor receives it: the status code, the
Retry-After header, and the quota counters a server may report in further
headers (remaining/limit for each window).  The quota fields are carried
here so that theorems can speak about responses that have them; doOnce in
the source reads only the Retry-After header. -/
structure HTTPResponse where
  statusCode : Int
  retryAfterHeader : String
  minuteRemainingHeader : Option Int
  minuteLimitHeader : Option Int
  dayRemainingHeader : Option Int
  dayLimitHeader : Option Int
deriving DecidableEq, Repr

/-- The triple doOnce returns to doWithRetry: the error (none on success,
with its network-error classification flags when it is one), the status
code, and the parsed Retry-After seconds. -/
structure AttemptOutcome where
  err : Option (Option NetErrorFlags)
  statusCode : Int
  retryAfter : Int
deriving DecidableEq, Repr

/-- doOnce's handling of a received response (transport file lines
245-279), given the date-parse oracle for the Retry-After header: parse
Retry-After, build a MouserError for 429, for any other non-2xx status,
and succeed otherwise.  A MouserError is not a net.Error, so its
classification flags are none.  The quota headers of the response are
never read.  The rate-limiter Wait call and the transport/body/JSON
error paths that precede this classification are modelled separately
(RateLimiter.Wait; outcomes fed to doWithRetry). -/
def doOnce (resp : HTTPResponse) (dateSecs : Option Int) : AttemptOutcome :=
  let retryAfter := parseRetryAfter resp.retryAfterHeader dateSecs
  if resp.statusCode = 429 then
    { err := some none, statusCode := resp.statusCode, retryAfter := retryAfter }
  else if resp.statusCode < 200 ∨ 300 ≤ resp.statusCode then
    { err := some none, statusCode := resp.statusCode, retryAfter := retryAfter }
  else
    { err := none, statusCode := resp.statusCode, retryAfter := 0 }

/-- Result of doWithRetry: how many attempts (doOnce calls) ran, how many
backoff sleeps were taken, the returned error (none = success; otherwise
the last attempt's error and status), and the rate limiter's final
state. -/
structure RetryResult where
  attempts : Nat
  backoffSleeps : Nat
  err : Option (Option NetErrorFlags × Int)
  rl : RateLimiter
deriving DecidableEq

/-- The for-loop of doWithRetry (transport file lines 160-196), with the
iteration at index `attempt` and `remaining` iterations left
(attempt + remaining = maxAttempts).  Each iteration after the first
sleeps a backoff, runs doOnce (its outcome supplied by `outcomes`, its
wall-clock instant by `nowAt`), returns on success, feeds a positive
Retry-After into the limiter via UpdateFromResponse, returns when the
error is not retryable or this was the last iteration, else loops.
The only rate-limiter call in the loop body itself is
UpdateFromResponse. -/
def doWithRetryGo (outcomes : Nat → AttemptOutcome) (nowAt : Nat → Int) :
    Nat → Nat → RateLimiter → Nat → Option (Option NetErrorFlags × Int) → RetryResult
  | attempt, 0, rl, sleeps, lastErr =>
    { attempts := attempt, backoffSleeps := sleeps, err := lastErr, rl := rl }
  | attempt, remaining + 1, rl, sleeps, _ =>
    let sleeps := if attempt > 0 then sleeps + 1 else sleeps
    let o := outcomes attempt
    match o.err with
    | none =>
      { attempts := attempt + 1, backoffSleeps := sleeps, err := none, rl := rl }
    | some e =>
      let rl := if o.retryAfter > 0 then rl.UpdateFromResponse (nowAt attempt) o.retryAfter else rl
      if shouldRetry e o.statusCode = false then
        { attempts := attempt + 1, backoffSleeps := sleeps, err := some (e, o.statusCode), rl := rl }
      else if remaining = 0 then
        { attempts := attempt + 1, backoffSleeps := sleeps, err := some (e, o.statusCode), rl := rl }
      else
        doWithRetryGo outcomes nowAt (attempt + 1) remaining rl sleeps (some (e, o.statusCode))

/-- doWithRetry (transport file lines 160-196): run the loop for
maxAttempts = MaxRetries + 1 iterations (none when MaxRetries < 0 — the
Go loop body does not execute and nil is returned). -/
def doWithRetry (cfg : RetryConfig) (outcomes : Nat → AttemptOutcome) (nowAt : Nat → Int)
    (rl : RateLimiter) : RetryResult :=
  doWithRetryGo outcomes nowAt 0 (cfg.MaxRetries + 1).toNat rl 0 none

/-- The feedback of one doOnce outcome into the rate limiter performed by
the body of the retry loop (transport file lines 179-182): a positive
parsed Retry-After is fed to UpdateFromResponse, otherwise the limiter is
left alone.  This and the Wait call inside doOnce (modelled by
RateLimiter.Wait) are the only limiter interactions of an attempt. -/
def responseFeedback (rl : RateLimiter) (now : Int) (o : AttemptOutcome) : RateLimiter :=
  if o.retryAfter > 0 then rl.UpdateFromResponse now o.retryAfter else rl

/-- Invariant of the rate limiter claimed by the specification: both token
counts stay between zero and their window's capacity. -/
def RateLimiterInv (r : RateLimiter) : Prop :=
  0 ≤ r.minuteTokens ∧ r.minuteTokens ≤ r.requestsPerMinute ∧
  0 ≤ r.dailyTokens ∧ r.dailyTokens ≤ r.requestsPerDay

instance (r : RateLimiter) : Decidable (RateLimiterInv r) := by
  unfold RateLimiterInv
  infer_instance

/-- Claim C7: a Set with positive ttl is visible to Get before the expiry
instant and gone after it, and Get never serves a payload whose entry is
past expiry; because Set unconditionally overwrites the binding for its
key, this holds over any prior interleaving of Set calls (the cache state
`c` is arbitrary, and the stored entry is exactly the last Set's). -/
theorem cache_roundtrip_and_no_expired_reads (c : MemoryCache) (t now : Int)
    (k key : String) (v val : List Nat) (ttl : Int) (hp : 0 < ttl) :
    (now < t + ttl → (c.Set t k v ttl).Get now k = some v) ∧
    (t + ttl < now → (c.Set t k v ttl).Get now k = none) ∧
    (c.Get now key = some val →
      ∃ e, c.entries.lookup key = some e ∧ now ≤ e.expiresAt ∧ e.value = val) := by
  have hne : ttl ≠ 0 := by omega
  refine ⟨?_, ?_, ?_⟩
  · intro hlt
    simp only [MemoryCache.Get, MemoryCache.Set, if_neg hne, List.lookup, beq_self_eq_true]
    rw [if_neg (by omega)]
  · intro hgt
    simp only [MemoryCache.Get, MemoryCache.Set, if_neg hne, List.lookup, beq_self_eq_true]
    rw [if_pos (by omega)]
  · intro hget
    unfold MemoryCache.Get at hget
    cases hl : c.entries.lookup key with
    | none => rw [hl] at hget; exact absurd hget (by simp)
    | some e =>
      rw [hl] at hget
      dsimp only at hget
      split_ifs at hget with hexp
      exact ⟨e, rfl, by omega, by injection hget⟩

/-- Witness for C7 at a concrete instance: set at time 0 with ttl 5, read
back at time 3. -/
theorem cache_roundtrip_and_no_expired_reads_witness :
    ((NewMemoryCache 100).Set 0 ("k") [1, 2] 5).Get 3 ("k") = some [1, 2] :=
  (cache_roundtrip_and_no_expired_reads (NewMemoryCache 100) 0 3 ("k") ("k")
    [1, 2] [1, 2] 5 (by decide)).1 (by decide)

/-- Counterexample for C8: an entry whose expiry (time 5) is past is not
removed by a Get on its key — Get holds only the read lock and performs no
deletion, so the table still has size 1 after the not-found Get at time 10;
only the sweep (cleanup) removes it. -/
theorem expired_entry_survives_get :
    ((NewMemoryCache 100).Set 0 ("k") [1] 5).Get 10 ("k") = none ∧
    ((NewMemoryCache 100).Set 0 ("k") [1] 5).Size = 1 ∧
    (((NewMemoryCache 100).Set 0 ("k") [1] 5).cleanup 10).Size = 0 := by
  decide

/-- Amended C8: expired entries are physically removed only by the periodic
sweep; Get merely reports not-found for them without deleting.  Get and the
sweep agree on the expiry predicate now > expiresAt: Get serves a looked-up
entry exactly when now ≤ expiresAt, and cleanup keeps exactly the entries
with now ≤ expiresAt. -/
theorem get_and_sweep_agree_on_expiry (c : MemoryCache) (now : Int) (k : String)
    (e : cacheEntry) (h : c.entries.lookup k = some e) :
    (c.Get now k = some e.value ↔ now ≤ e.expiresAt) ∧
    (∀ p : String × cacheEntry, p ∈ (c.cleanup now).entries ↔
      p ∈ c.entries ∧ now ≤ p.2.expiresAt) := by
  constructor
  · unfold MemoryCache.Get
    rw [h]
    dsimp only
    split_ifs with hexp
    · simp only [false_iff, not_le]
      omega
    · simp only [Option.some.injEq, true_iff]
      omega
  · intro p
    simp only [MemoryCache.cleanup, List.mem_filter, decide_eq_true_eq, not_lt]

/-- Witness for C8's amended theorem at a concrete instance. -/
theorem get_and_sweep_agree_on_expiry_witness :
    ((NewMemoryCache 100).Set 0 ("k") [1] 5).Get 3 ("k") = some [1] :=
  ((get_and_sweep_agree_on_expiry ((NewMemoryCache 100).Set 0 ("k") [1] 5) 3 ("k")
    { value := [1], expiresAt := 5 } (by decide)).1).2 (by decide)

/-- Claim C10: a strictly negative ttl is not replaced by the default TTL
(only ttl = 0 is): the entry is stored with expiry t + ttl, already in the
past, so an immediate Get at the same instant reports not-found. -/
theorem set_negative_ttl_expires_immediately (c : MemoryCache) (t : Int) (k : String)
    (v : List Nat) (ttl : Int) (h : ttl < 0) :
    (c.Set t k v ttl).entries.lookup k = some { value := v, expiresAt := t + ttl } ∧
    (c.Set t k v ttl).Get t k = none := by
  have hne : ttl ≠ 0 := by omega
  constructor
  · simp only [MemoryCache.Set, if_neg hne, List.lookup, beq_self_eq_true]
  · simp only [MemoryCache.Get, MemoryCache.Set, if_neg hne, List.lookup, beq_self_eq_true]
    rw [if_pos (by omega)]

/-- Witness for C10 at a concrete instance: ttl -1 at time 0. -/
theorem set_negative_ttl_expires_immediately_witness :
    ((NewMemoryCache 100).Set 0 ("k") [1, 2] (-1)).Get 0 ("k") = none :=
  (set_negative_ttl_expires_immediately (NewMemoryCache 100) 0 ("k") [1, 2] (-1)
    (by decide)).2

/-- Counterexample for C6: the negative integer string parses through the
Atoi branch and is returned as-is — parseRetryAfter of the string -5 is -5,
not 0, whatever the date oracle says (the Atoi branch never consults it). -/
theorem parseRetryAfter_negative_integer_string :
    parseRetryAfter ("-5") none = -5 ∧ ((-5 : Int) ≠ 0) := by
  decide

/-- Amended C6: parseRetryAfter never fails: the empty header yields 0; a
header that Atoi parses is returned exactly as parsed, including negative
values; a header Atoi rejects yields the date-branch value, which is
clamped to be non-negative (the positive seconds-until-date, else 0). -/
theorem parseRetryAfter_spec (header : String) (dateSecs : Option Int) :
    (header = ("") → parseRetryAfter header dateSecs = 0) ∧
    (∀ n, goAtoi header = some n → header ≠ ("") → parseRetryAfter header dateSecs = n) ∧
    (header ≠ ("") → goAtoi header = none →
      parseRetryAfter header dateSecs =
        (match dateSecs with
         | some s => if 0 < s then s else 0
         | none => 0)) ∧
    (goAtoi header = none → 0 ≤ parseRetryAfter header dateSecs) := by
  refine ⟨?_, ?_, ?_, ?_⟩
  · intro he
    simp [parseRetryAfter, he]
  · intro n hn he
    simp only [parseRetryAfter, if_neg he, hn]
  · intro he hn
    simp only [parseRetryAfter, if_neg he, hn]
  · intro hn
    by_cases he : header = ("")
    · simp [parseRetryAfter, he]
    · simp only [parseRetryAfter, if_neg he, hn]
      cases dateSecs with
      | none => dsimp only; omega
      | some s =>
        dsimp only
        split_ifs with hs <;> omega

/-- Witness for C6's amended theorem at concrete inputs: an unparseable
header yields 0. -/
theorem parseRetryAfter_spec_witness :
    parseRetryAfter ("soon") (some (-3)) = 0 :=
  (parseRetryAfter_spec ("soon") (some (-3))).2.2.1 (by decide) (by decide)

/-- Counterexample for C3: an active server blackout and minute-scope
exhaustion produce the very same sentinel, ErrRateLimitExceeded — a fresh
limiter one tick after UpdateFromResponse(60) and a limiter with minute
tokens exhausted both deny with that one error, so TryAcquire's blackout
denial is not distinguishable from its minute-quota denial. -/
theorem tryAcquire_blackout_error_equals_minute_error :
    ((NewRateLimiter 30 1000 0).UpdateFromResponse 0 60).TryAcquire 1
      = (((NewRateLimiter 30 1000 0).UpdateFromResponse 0 60), false,
         some SentinelError.rateLimitExceeded) ∧
    ({ NewRateLimiter 30 1000 0 with minuteTokens := 0 }.TryAcquire 1).2.2
      = some SentinelError.rateLimitExceeded := by
  decide

/-- Amended C3: TryAcquire distinguishes only two error kinds, not three:
day-scope exhaustion yields ErrDailyLimitExceeded, while both minute-scope
exhaustion and an active server blackout yield the same
ErrRateLimitExceeded; immediately after UpdateFromResponse with a positive
retry-after, TryAcquire denies with ErrRateLimitExceeded (not a dedicated
blackout error). -/
theorem tryAcquire_error_classification (r : RateLimiter) (now secs : Int) :
    (now < r.blockedUntil →
      r.TryAcquire now = (r, false, some SentinelError.rateLimitExceeded)) ∧
    (¬ now < r.blockedUntil → (r.resetWindows now).dailyTokens ≤ 0 →
      r.TryAcquire now
        = (r.resetWindows now, false, some SentinelError.dailyLimitExceeded)) ∧
    (¬ now < r.blockedUntil → 0 < (r.resetWindows now).dailyTokens →
      (r.resetWindows now).minuteTokens ≤ 0 →
      r.TryAcquire now
        = (r.resetWindows now, false, some SentinelError.rateLimitExceeded)) ∧
    (0 < secs →
      ((r.UpdateFromResponse now secs).TryAcquire now).2.1 = false ∧
      ((r.UpdateFromResponse now secs).TryAcquire now).2.2
        = some SentinelError.rateLimitExceeded) := by
  refine ⟨?_, ?_, ?_, ?_⟩
  · intro hb
    simp only [RateLimiter.TryAcquire, if_pos hb]
  · intro hb hd
    simp only [RateLimiter.TryAcquire, if_neg hb, if_pos hd]
  · intro hb hd hm
    simp only [RateLimiter.TryAcquire, if_neg hb, if_neg (by omega : ¬ (r.resetWindows now).dailyTokens ≤ 0), if_pos hm]
  · intro hs
    have hblocked : now < ((r.UpdateFromResponse now secs).blockedUntil) := by
      unfold RateLimiter.UpdateFromResponse
      rw [if_neg (by omega : ¬ secs ≤ 0)]
      simp only [nsPerSecond]
      split_ifs <;> first
        | omega
        | (dsimp only; omega)
    simp [RateLimiter.TryAcquire, if_pos hblocked]

/-- Witness for C3's amended theorem: right after UpdateFromResponse(60) a
fresh limiter denies with ErrRateLimitExceeded. -/
theorem tryAcquire_error_classification_witness :
    (((NewRateLimiter 30 1000 0).UpdateFromResponse 1 60).TryAcquire 1).2.2
      = some SentinelError.rateLimitExceeded :=
  ((tryAcquire_error_classification (NewRateLimiter 30 1000 0) 1 60).2.2.2 (by decide)).2

/-- Window resets never change the capacities, and leave each token count
either unchanged or refilled to its capacity. -/
theorem resetWindows_cases (r : RateLimiter) (now : Int) :
    (r.resetWindows now).requestsPerMinute = r.requestsPerMinute ∧
    (r.resetWindows now).requestsPerDay = r.requestsPerDay ∧
    ((r.resetWindows now).minuteTokens = r.minuteTokens ∨
      (r.resetWindows now).minuteTokens = r.requestsPerMinute) ∧
    ((r.resetWindows now).dailyTokens = r.dailyTokens ∨
      (r.resetWindows now).dailyTokens = r.requestsPerDay) := by
  simp only [RateLimiter.resetWindows]
  split_ifs <;> simp

/-- Claim C1 fails on Wait: with minute capacity ≤ 0 and day tokens
available, Wait never returns, at any list of loop wake-up instants —
every pass of its loop ends in a sleep, because each minute reset refills
the minute tokens to the zero capacity (the daily fail-fast branch is
never reached, daily tokens being positive and only ever refilled).  For
TryAcquire and for Wait with a zero day capacity the fail-fast behaviour
the claim demands does hold, per tryAcquire_error_classification and the
dailyExceeded branch of waitStep. -/
theorem wait_zero_minute_capacity_never_returns (r : RateLimiter)
    (hcap : r.requestsPerMinute ≤ 0) (htok : r.minuteTokens ≤ 0)
    (hdcap : 0 < r.requestsPerDay) (hday : 0 < r.dailyTokens)
    (times : List Int) :
    r.Wait times = none := by
  induction times generalizing r with
  | nil => rfl
  | cons now rest ih =>
    by_cases hb : now < r.blockedUntil
    · have hstep : r.waitStep now = .sleep r r.blockedUntil := by
        unfold RateLimiter.waitStep
        rw [if_pos hb]
      simp only [RateLimiter.Wait, hstep]
      exact ih r hcap htok hdcap hday
    · obtain ⟨h1, h2, h3, h4⟩ := resetWindows_cases r now
      have hmt : (r.resetWindows now).minuteTokens ≤ 0 := by rcases h3 with h | h <;> omega
      have hdt : 0 < (r.resetWindows now).dailyTokens := by rcases h4 with h | h <;> omega
      have hstep : r.waitStep now
          = .sleep (r.resetWindows now) ((r.resetWindows now).lastMinuteReset + nsPerMinute) := by
        simp only [RateLimiter.waitStep, if_neg hb]
        rw [if_neg (by omega : ¬ (r.resetWindows now).dailyTokens ≤ 0),
          if_neg (by omega : ¬ (r.resetWindows now).minuteTokens > 0)]
      simp only [RateLimiter.Wait, hstep]
      exact ih _ (by omega) (by omega) (by omega) (by omega)

/-- Witness for C1's theorem: a limiter built with minute capacity 0 and
day capacity 5 is still inside Wait's loop after wake-ups at one-minute
intervals. -/
theorem wait_zero_minute_capacity_never_returns_witness :
    (NewRateLimiter 0 5 0).Wait [0, 60000000000, 120000000000] = none :=
  wait_zero_minute_capacity_never_returns (NewRateLimiter 0 5 0)
    (by decide) (by decide) (by decide) (by decide) [0, 60000000000, 120000000000]

/-- Window resets preserve the token invariant. -/
theorem resetWindows_inv (r : RateLimiter) (now : Int) (h : RateLimiterInv r) :
    RateLimiterInv (r.resetWindows now) := by
  obtain ⟨hc1, hc2, h3, h4⟩ := resetWindows_cases r now
  unfold RateLimiterInv at *
  rcases h3 with h3 | h3 <;> rcases h4 with h4 | h4 <;> omega

/-- TryAcquire preserves the token invariant. -/
theorem tryAcquire_inv (r : RateLimiter) (now : Int) (h : RateLimiterInv r) :
    RateLimiterInv (r.TryAcquire now).1 := by
  have hs := resetWindows_inv r now h
  simp only [RateLimiter.TryAcquire]
  split_ifs with hb hd hm
  · exact h
  · exact hs
  · exact hs
  · unfold RateLimiterInv at hs ⊢
    dsimp only
    omega

/-- One pass of Wait's loop preserves the token invariant. -/
theorem waitStep_inv (r : RateLimiter) (now : Int) (h : RateLimiterInv r) :
    RateLimiterInv (r.waitStep now).state := by
  have hs := resetWindows_inv r now h
  simp only [RateLimiter.waitStep]
  split_ifs with hb hd hm
  · exact h
  · exact hs
  · unfold RateLimiterInv at hs ⊢
    dsimp only [WaitOutcome.state]
    omega
  · exact hs

/-- Wait preserves the token invariant whenever it returns. -/
theorem wait_inv (r : RateLimiter) (times : List Int) (h : RateLimiterInv r) :
    ∀ p, r.Wait times = some p → RateLimiterInv p.1 := by
  induction times generalizing r with
  | nil => intro p hp; exact absurd hp (by simp [RateLimiter.Wait])
  | cons now rest ih =>
    intro p hp
    have hstep := waitStep_inv r now h
    simp only [RateLimiter.Wait] at hp
    cases hw : r.waitStep now with
    | granted r2 =>
      rw [hw] at hp hstep
      injection hp with hp
      rw [← hp]
      exact hstep
    | dailyExceeded r2 =>
      rw [hw] at hp hstep
      injection hp with hp
      rw [← hp]
      exact hstep
    | sleep r2 w =>
      rw [hw] at hp hstep
      exact ih r2 hstep p hp

/-- Claim C9: with non-negative capacities, the invariant
0 ≤ minuteTokens ≤ minuteCapacity ∧ 0 ≤ dailyTokens ≤ dayCapacity holds
after construction and is preserved by TryAcquire (including its window
resets), by every returning Wait, and by UpdateFromResponse; Stats is a
pure read of the counters (RemainingMinute and RemainingDaily are likewise
pure reads by construction), and each granted permit — whether from
TryAcquire or from the granting pass of Wait's loop — decrements both the
minute and the day token count by exactly one relative to the post-reset
state of that pass. -/
theorem rateLimiter_invariant (m d now secs : Int) (r : RateLimiter) (times : List Int)
    (hm : 0 ≤ m) (hd : 0 ≤ d) (hr : RateLimiterInv r) :
    RateLimiterInv (NewRateLimiter m d now) ∧
    RateLimiterInv (r.TryAcquire now).1 ∧
    (∀ p, r.Wait times = some p → RateLimiterInv p.1) ∧
    RateLimiterInv (r.UpdateFromResponse now secs) ∧
    r.Stats = { MinuteRemaining := r.minuteTokens, DailyRemaining := r.dailyTokens,
                BlockedUntil := r.blockedUntil } ∧
    ((r.TryAcquire now).2.1 = true →
      (r.TryAcquire now).1.minuteTokens = (r.resetWindows now).minuteTokens - 1 ∧
      (r.TryAcquire now).1.dailyTokens = (r.resetWindows now).dailyTokens - 1) ∧
    (∀ r2, r.waitStep now = WaitOutcome.granted r2 →
      r2.minuteTokens = (r.resetWindows now).minuteTokens - 1 ∧
      r2.dailyTokens = (r.resetWindows now).dailyTokens - 1) := by
  refine ⟨?_, tryAcquire_inv r now hr, wait_inv r times hr, ?_, rfl, ?_, ?_⟩
  · unfold RateLimiterInv NewRateLimiter
    dsimp only
    omega
  · unfold RateLimiterInv at hr ⊢
    simp only [RateLimiter.UpdateFromResponse]
    split_ifs <;> first
      | omega
      | (dsimp only; omega)
  · intro hgrant
    simp only [RateLimiter.TryAcquire] at hgrant ⊢
    split_ifs at hgrant ⊢ with hb hd2 hm2
    exact ⟨rfl, rfl⟩
  · intro r2 hg
    simp only [RateLimiter.waitStep] at hg
    split_ifs at hg with hb hd2 hm2
    injection hg with hg
    rw [← hg]
    exact ⟨rfl, rfl⟩

/-- Witness for C9 at a concrete instance: a fresh 30/1000 limiter
satisfies the invariant, and still does after a TryAcquire. -/
theorem rateLimiter_invariant_witness :
    RateLimiterInv (NewRateLimiter 30 1000 0) ∧
    RateLimiterInv ((NewRateLimiter 30 1000 0).TryAcquire 1).1 :=
  ⟨(rateLimiter_invariant 30 1000 0 60 (NewRateLimiter 30 1000 0) [0]
      (by decide) (by decide) (by decide)).1,
   (rateLimiter_invariant 30 1000 1 60 (NewRateLimiter 30 1000 0) [0]
      (by decide) (by decide) (by decide)).2.1⟩

/-- UpdateFromResponse writes only blockedUntil: token counts, capacities
and window anchors are untouched. -/
theorem updateFromResponse_only_blockedUntil (r : RateLimiter) (now secs : Int) :
    (r.UpdateFromResponse now secs).minuteTokens = r.minuteTokens ∧
    (r.UpdateFromResponse now secs).dailyTokens = r.dailyTokens ∧
    (r.UpdateFromResponse now secs).requestsPerMinute = r.requestsPerMinute ∧
    (r.UpdateFromResponse now secs).requestsPerDay = r.requestsPerDay ∧
    (r.UpdateFromResponse now secs).lastMinuteReset = r.lastMinuteReset ∧
    (r.UpdateFromResponse now secs).lastDayReset = r.lastDayReset := by
  simp only [RateLimiter.UpdateFromResponse]
  split_ifs <;> simp

/-- Amended C2: the executor never overwrites the limiter's token counts
or capacities with server-reported quota values — no quota-header sync
exists.  doOnce reads only the status code and the Retry-After header of
a response: its result is unchanged under arbitrary quota-counter
headers.  The sole feedback of a response into the limiter is
responseFeedback (UpdateFromResponse on a positive Retry-After), which
leaves the minute/day tokens, the capacities and the window anchors
untouched and can only move blockedUntil forward.  Token counts do change
during a run, but only through the Wait acquisition inside each attempt —
never by being set to server-reported remaining values. -/
theorem executor_feedback_only_blackout (rl : RateLimiter) (now : Int)
    (resp : HTTPResponse) (dateSecs : Option Int) :
    (∀ mr ml dr dl, doOnce resp dateSecs
      = doOnce
          { resp with
            minuteRemainingHeader := mr
            minuteLimitHeader := ml
            dayRemainingHeader := dr
            dayLimitHeader := dl } dateSecs) ∧
    (responseFeedback rl now (doOnce resp dateSecs)).minuteTokens = rl.minuteTokens ∧
    (responseFeedback rl now (doOnce resp dateSecs)).dailyTokens = rl.dailyTokens ∧
    (responseFeedback rl now (doOnce resp dateSecs)).requestsPerMinute = rl.requestsPerMinute ∧
    (responseFeedback rl now (doOnce resp dateSecs)).requestsPerDay = rl.requestsPerDay ∧
    (responseFeedback rl now (doOnce resp dateSecs)).lastMinuteReset = rl.lastMinuteReset ∧
    (responseFeedback rl now (doOnce resp dateSecs)).lastDayReset = rl.lastDayReset ∧
    rl.blockedUntil ≤ (responseFeedback rl now (doOnce resp dateSecs)).blockedUntil := by
  refine ⟨fun mr ml dr dl => rfl, ?_⟩
  obtain ⟨a1, a2, a3, a4, a5, a6⟩ := updateFromResponse_only_blockedUntil rl now
    ((doOnce resp dateSecs).retryAfter)
  unfold responseFeedback
  split_ifs with hra
  · refine ⟨a1, a2, a3, a4, a5, a6, ?_⟩
    simp only [RateLimiter.UpdateFromResponse]
    split_ifs <;> first
      | omega
      | (dsimp only; omega)
  · exact ⟨rfl, rfl, rfl, rfl, rfl, rfl, le_refl rl.blockedUntil⟩

/-- Counterexample for C2 at concrete values: a response carrying
authoritative quota headers (minute remaining 7 of 30, day remaining 900
of 1000) is processed by the executor after a granted Wait consumed one
token of a fresh 30/1000 limiter, and the limiter's minute tokens after
the executor finishes are 29 — the local decrement — not the
server-reported 7. -/
theorem executor_ignores_quota_headers :
    (NewRateLimiter 30 1000 0).Wait [0]
      = some ({ NewRateLimiter 30 1000 0 with minuteTokens := 29, dailyTokens := 999 },
              none) ∧
    (doWithRetry
        { MaxRetries := 0, InitialBackoff := 500, MaxBackoff := 30000,
          Multiplier := 2, Jitter := 0 }
        (fun _ => doOnce
          { statusCode := 500, retryAfterHeader := (""), minuteRemainingHeader := some 7,
            minuteLimitHeader := some 30, dayRemainingHeader := some 900,
            dayLimitHeader := some 1000 } none)
        (fun _ => 0)
        { NewRateLimiter 30 1000 0 with minuteTokens := 29, dailyTokens := 999 }).rl.minuteTokens
      = 29 ∧
    ((29 : Int) ≠ 7) := by
  refine ⟨by decide, ?_, by decide⟩
  decide

/-- When every attempt's outcome is a retryable failure, the loop runs all
its remaining iterations, counts one attempt per iteration, and ends with
the last iteration's error and status. -/
theorem doWithRetryGo_all_retryable (outcomes : Nat → AttemptOutcome) (nowAt : Nat → Int)
    (hall : ∀ i, ∃ e, (outcomes i).err = some e ∧
      shouldRetry e (outcomes i).statusCode = true) :
    ∀ (k attempt : Nat) (rl : RateLimiter) (sleeps : Nat)
      (lastErr : Option (Option NetErrorFlags × Int)),
      (doWithRetryGo outcomes nowAt attempt (k + 1) rl sleeps lastErr).attempts
        = attempt + k + 1 ∧
      ∃ e, (outcomes (attempt + k)).err = some e ∧
        (doWithRetryGo outcomes nowAt attempt (k + 1) rl sleeps lastErr).err
          = some (e, (outcomes (attempt + k)).statusCode) := by
  intro k
  induction k with
  | zero =>
    intro attempt rl sleeps lastErr
    obtain ⟨e, he, hsr⟩ := hall attempt
    rw [doWithRetryGo]
    simp only [he, hsr, Nat.add_zero]
    exact ⟨rfl, e, rfl, rfl⟩
  | succ k ih =>
    intro attempt rl sleeps lastErr
    obtain ⟨e, he, hsr⟩ := hall attempt
    rw [doWithRetryGo]
    simp only [he]
    rw [if_neg (by simp [hsr]), if_neg (Nat.succ_ne_zero k)]
    obtain ⟨h1, h2⟩ := ih (attempt + 1)
      (if (outcomes attempt).retryAfter > 0
        then rl.UpdateFromResponse (nowAt attempt) ((outcomes attempt).retryAfter)
        else rl)
      (if attempt > 0 then sleeps + 1 else sleeps)
      (some (e, (outcomes attempt).statusCode))
    have harith : attempt + 1 + k = attempt + (k + 1) := by omega
    rw [harith] at h1 h2
    exact ⟨h1, h2⟩

/-- Claim C4: with maxRetries = m ≥ 0, a run whose every attempt fails
retryably performs exactly m + 1 attempts and returns the last attempt's
error; a run whose first attempt fails non-retryably performs exactly one
attempt and returns immediately, with zero backoff sleeps. -/
theorem doWithRetry_attempt_counts (cfg : RetryConfig) (outcomes : Nat → AttemptOutcome)
    (nowAt : Nat → Int) (rl : RateLimiter) (m : Nat) (hm : cfg.MaxRetries = (m : Int)) :
    ((∀ i, ∃ e, (outcomes i).err = some e ∧
        shouldRetry e (outcomes i).statusCode = true) →
      (doWithRetry cfg outcomes nowAt rl).attempts = m + 1 ∧
      ∃ e, (outcomes m).err = some e ∧
        (doWithRetry cfg outcomes nowAt rl).err
          = some (e, (outcomes m).statusCode)) ∧
    (∀ e, (outcomes 0).err = some e →
      shouldRetry e (outcomes 0).statusCode = false →
      (doWithRetry cfg outcomes nowAt rl).attempts = 1 ∧
      (doWithRetry cfg outcomes nowAt rl).backoffSleeps = 0 ∧
      (doWithRetry cfg outcomes nowAt rl).err
        = some (e, (outcomes 0).statusCode)) := by
  have htn : (cfg.MaxRetries + 1).toNat = m + 1 := by omega
  constructor
  · intro hall
    unfold doWithRetry
    rw [htn]
    obtain ⟨h1, h2⟩ := doWithRetryGo_all_retryable outcomes nowAt hall m 0 rl 0 none
    refine ⟨by omega, ?_⟩
    have harith : 0 + m = m := by omega
    rw [harith] at h2
    exact h2
  · intro e he hsr
    unfold doWithRetry
    rw [htn]
    cases m with
    | zero =>
      simp only [doWithRetryGo, he]
      rw [if_pos hsr]
      exact ⟨rfl, rfl, rfl⟩
    | succ m2 =>
      simp only [doWithRetryGo, he]
      rw [if_pos hsr]
      exact ⟨rfl, rfl, rfl⟩

/-- Witness for C4 at concrete runs: maxRetries 2 with constant HTTP 500
failures yields 3 attempts; the same configuration with an HTTP 404 first
outcome yields 1 attempt. -/
theorem doWithRetry_attempt_counts_witness :
    (doWithRetry
      { MaxRetries := 2, InitialBackoff := 500, MaxBackoff := 30000,
        Multiplier := 2, Jitter := 0 }
      (fun _ => { err := some none, statusCode := 500, retryAfter := 0 })
      (fun _ => 0) (NewRateLimiter 30 1000 0)).attempts = 3 ∧
    (doWithRetry
      { MaxRetries := 2, InitialBackoff := 500, MaxBackoff := 30000,
        Multiplier := 2, Jitter := 0 }
      (fun _ => { err := some none, statusCode := 404, retryAfter := 0 })
      (fun _ => 0) (NewRateLimiter 30 1000 0)).attempts = 1 := by
  constructor
  · exact ((doWithRetry_attempt_counts
      { MaxRetries := 2, InitialBackoff := 500, MaxBackoff := 30000,
        Multiplier := 2, Jitter := 0 }
      (fun _ => { err := some none, statusCode := 500, retryAfter := 0 })
      (fun _ => 0) (NewRateLimiter 30 1000 0) 2 (by decide)).1
      (fun i => ⟨none, rfl, by decide⟩)).1
  · exact ((doWithRetry_attempt_counts
      { MaxRetries := 2, InitialBackoff := 500, MaxBackoff := 30000,
        Multiplier := 2, Jitter := 0 }
      (fun _ => { err := some none, statusCode := 404, retryAfter := 0 })
      (fun _ => 0) (NewRateLimiter 30 1000 0) 2 (by decide)).2
      none rfl (by decide)).1

/-- The source's pow of a non-negative base is non-negative. -/
theorem pow_nonneg_of_nonneg (base : ℚ) (hb : 0 ≤ base) : ∀ n, 0 ≤ pow base n := by
  intro n
  induction n with
  | zero => norm_num [pow]
  | succ k ih => exact mul_nonneg ih hb

/-- Claim C5: with non-negative initial backoff, multiplier and cap and
jitter factor at most 1, for every attempt index i and every jitter draw u
in [-1, 1]: with Jitter = 0 the backoff is exactly
initial * multiplier^i clamped at MaxBackoff; with Jitter in (0, 1] it
stays within plus-or-minus Jitter (relative) of that clamped value; and it
never exceeds MaxBackoff for any draw. -/
theorem calculateBackoff_spec (c : RetryConfig) (i : Nat) (u : ℚ)
    (h0 : 0 ≤ c.InitialBackoff) (hmul : 0 ≤ c.Multiplier) (hM : 0 ≤ c.MaxBackoff)
    (hj1 : c.Jitter ≤ 1) (hu : |u| ≤ 1) :
    (c.Jitter = 0 →
      c.calculateBackoff i u = min (c.InitialBackoff * pow c.Multiplier i) c.MaxBackoff) ∧
    (0 < c.Jitter →
      |c.calculateBackoff i u - min (c.InitialBackoff * pow c.Multiplier i) c.MaxBackoff|
        ≤ c.Jitter * min (c.InitialBackoff * pow c.Multiplier i) c.MaxBackoff) ∧
    c.calculateBackoff i u ≤ c.MaxBackoff := by
  have hb0 : 0 ≤ c.InitialBackoff * pow c.Multiplier i :=
    mul_nonneg h0 (pow_nonneg_of_nonneg c.Multiplier hmul i)
  obtain ⟨hu1, hu2⟩ := abs_le.mp hu
  refine ⟨?_, ?_, ?_⟩
  · intro hj
    simp only [RetryConfig.calculateBackoff, hj, lt_irrefl, if_false]
    rcases le_or_lt (c.InitialBackoff * pow c.Multiplier i) c.MaxBackoff with hle | hgt
    · rw [if_neg (not_lt.mpr hle), min_eq_left hle]
    · rw [if_pos hgt, min_eq_right (le_of_lt hgt)]
  · intro hj
    simp only [RetryConfig.calculateBackoff, if_pos hj]
    set b0 := c.InitialBackoff * pow c.Multiplier i with hb0def
    have hbj : 0 ≤ b0 * c.Jitter := mul_nonneg hb0 (le_of_lt hj)
    have hkey1 : b0 * c.Jitter * u ≤ b0 * c.Jitter := by
      nlinarith [mul_nonneg hbj (by linarith : (0 : ℚ) ≤ 1 - u)]
    have hkey2 : -(b0 * c.Jitter) ≤ b0 * c.Jitter * u := by
      nlinarith [mul_nonneg hbj (by linarith : (0 : ℚ) ≤ 1 + u)]
    rcases le_or_lt b0 c.MaxBackoff with hle | hgt
    · rw [min_eq_left hle]
      split_ifs with hclamp
      · rw [abs_le]
        constructor <;> nlinarith
      · rw [abs_le]
        constructor <;> nlinarith
    · rw [min_eq_right (le_of_lt hgt)]
      split_ifs with hclamp
      · rw [abs_le]
        constructor <;> nlinarith
      · rw [abs_le]
        constructor <;> nlinarith
  · simp only [RetryConfig.calculateBackoff]
    split_ifs <;> first
      | exact le_refl c.MaxBackoff
      | exact le_of_not_lt (by assumption)

/-- Witness for C5 at a concrete configuration: initial 500, multiplier 2,
cap 30000, jitter 1/10, attempt 2, draw 1/2 — the computed backoff is
within a tenth of 2000 and under the cap. -/
theorem calculateBackoff_spec_witness :
    |RetryConfig.calculateBackoff
        { MaxRetries := 3, InitialBackoff := 500, MaxBackoff := 30000,
          Multiplier := 2, Jitter := 1/10 } 2 (1/2)
      - min ((500 : ℚ) * pow 2 2) 30000| ≤ (1/10 : ℚ) * min ((500 : ℚ) * pow 2 2) 30000 :=
  (calculateBackoff_spec
    { MaxRetries := 3, InitialBackoff := 500, MaxBackoff := 30000,
      Multiplier := 2, Jitter := 1/10 } 2 (1/2)
    (by norm_num) (by norm_num) (by norm_num) (by norm_num)
    (by rw [abs_le]; constructor <;> norm_num)).2.1 (by norm_num)
